import Mathlib

/-!
Verification of the transport and request-lifecycle core of the CppTools
LSP client (`api/lsp_client.py`): the JSON-RPC message codec, the
Content-Length framing layer, the standard-IO frame reader, the request
tracker and the client request lifecycle.

Modelling conventions.  Python integers are unbounded, so they become
`Nat`/`Int`.  Bytes are `Nat` codes and byte strings are `List Nat`.
Python dicts are insertion-ordered association lists whose keys are unique
(looked up by first occurrence, exactly as a dict with unique keys);
Python sets are lists considered up to membership, kept duplicate-free by
the set operations.  `json.dumps`/`json.loads` are standard-library
functions external to this repository and mutually inverse on
JSON-serializable values, so the codec is modelled at the JSON-value
level: `dumps` yields the JSON value it would serialize and `load`
consumes it; the repository's own contribution (installing and checking
the `jsonrpc` version tag) is modelled exactly.  Exceptions become
explicit result constructors; a Python method that mutates state before
raising is modelled as returning both the outcome and the mutated state.
-/

/-- JSON values (the image of Python objects under `json.loads`). -/
inductive Json where
  | null
  | bool (b : Bool)
  | num (n : Int)
  | str (s : String)
  | arr (elems : List Json)
  | obj (entries : List (String × Json))

/-- `class RPCMessage(dict)`: a JSON-RPC envelope, an insertion-ordered
string-keyed map of JSON values. -/
abbrev RPCMessage := List (String × Json)

/-- Python `dict.__setitem__`: if the key is present, replace its value in
place (the entry keeps its position); otherwise append the new binding. -/
def objInsert (k : String) (v : Json) (m : RPCMessage) : RPCMessage :=
  if (m.lookup k).isSome then
    m.map (fun p => if p.1 = k then (k, v) else p)
  else
    m ++ [(k, v)]

/-- `RPCMessage.dumps`: set `self["jsonrpc"] = "2.0"`, then serialize.
Serialization itself is Python's `json.dumps`, modelled at the JSON-value
level (see the module docstring), so the wire form is the tagged object. -/
def RPCMessage.dumps (m : RPCMessage) : Json :=
  .obj (objInsert "jsonrpc" (.str "2.0") m)

/-- `RPCMessage.load`: parse (modelled at the JSON-value level) and reject
the message unless `loaded.get("jsonrpc") == "2.0"` (`ValueError`). -/
def RPCMessage.load (j : Json) : Except String RPCMessage :=
  match j with
  | .obj entries =>
    match entries.lookup "jsonrpc" with
    | some (.str v) =>
      if v = "2.0" then .ok entries else .error "Not a JSON-RPC 2.0"
    | _ => .error "Not a JSON-RPC 2.0"
  | _ => .error "Not a JSON-RPC 2.0"

/-- `RPCMessage.exception_to_message`: `{"message": str(exception), "code": 1}`.
Exceptions are modelled by their string rendering. -/
def RPCMessage.exception_to_message (e : String) : RPCMessage :=
  [("message", .str e), ("code", .num 1)]

/-- `RPCMessage.request`: `{"id": id, "method": method, "params": params}`. -/
def RPCMessage.request (id : Nat) (method : String) (params : Json) : RPCMessage :=
  [("id", .num id), ("method", .str method), ("params", params)]

/-- `RPCMessage.notification`: `{"method": method, "params": params}`. -/
def RPCMessage.notification (method : String) (params : Json) : RPCMessage :=
  [("method", .str method), ("params", params)]

/-- Truthiness of an optional Python dict: `None` and the empty dict are
falsy, every non-empty dict is truthy. -/
def errTruthy : Option RPCMessage → Bool
  | none => false
  | some [] => false
  | some (_ :: _) => true

/-- `RPCMessage.response`: `{"id": id, "error": error}` when `error` is
truthy, else `{"id": id, "result": result}` (`None` serializes to null). -/
def RPCMessage.response (id : Json) (result : Option Json)
    (error : Option RPCMessage) : RPCMessage :=
  if errTruthy error then [("id", id), ("error", .obj (error.getD []))]
  else [("id", id), ("result", result.getD .null)]

/-- ASCII decimal digit test on a byte. -/
def isDigitByte (c : Nat) : Bool := 48 ≤ c && c ≤ 57

/-- Little-endian decimal digits of `n`, with explicit fuel so that the
definition is structurally recursive (any fuel at least `n` is exact). -/
def decDigitsRevF : Nat → Nat → List Nat
  | 0, _ => []
  | _ + 1, 0 => []
  | f + 1, n + 1 => ((n + 1) % 10) :: decDigitsRevF f ((n + 1) / 10)

/-- Big-endian decimal digits of `n`, as Python's `"%d"` renders them
(`0` renders as the single digit `0`). -/
def decDigitsBE (n : Nat) : List Nat :=
  if n = 0 then [0] else (decDigitsRevF n n).reverse

/-- ASCII bytes of Python's `b"%d" % n`. -/
def decRender (n : Nat) : List Nat := (decDigitsBE n).map (· + 48)

/-- Numeric value of a run of ASCII digit bytes (`int(...)` on the digits
captured by the `Content-Length` pattern). -/
def parseDec (ds : List Nat) : Nat := ds.foldl (fun a c => 10 * a + (c - 48)) 0

/-- The ASCII bytes of `"Content-Length: "`. -/
def contentLengthTag : List Nat :=
  [67, 111, 110, 116, 101, 110, 116, 45, 76, 101, 110, 103, 116, 104, 58, 32]

/-- `wrap_rpc`: `header = b"Content-Length: %d\r\n" % len(content)`,
returning `header + b"\r\n" + content`. -/
def wrap_rpc (content : List Nat) : List Nat :=
  (contentLengthTag ++ decRender content.length ++ [13, 10]) ++ ([13, 10] ++ content)

/-- Anchored literal match: `stripTag tag l = some rest` iff `l = tag ++ rest`. -/
def stripTag : List Nat → List Nat → Option (List Nat)
  | [], rest => some rest
  | _ :: _, [] => none
  | t :: ts, c :: cs => if c = t then stripTag ts cs else none

/-- `re.match(rb"Content-Length: (\d+)", line)` followed by `int(...)` on
the captured group: the line must start with the literal tag followed by
at least one digit; the capture is the maximal digit run. -/
def matchContentLength (line : List Nat) : Option Nat :=
  match stripTag contentLengthTag line with
  | none => none
  | some rest =>
    let ds := rest.takeWhile isDigitByte
    if ds.isEmpty then none else some (parseDec ds)

/-- Worker for Python `bytes.splitlines`: split on `\r\n`, `\r` or `\n`,
dropping the terminators; a trailing terminator yields no empty last line. -/
def splitlinesGo : List Nat → List Nat → List (List Nat)
  | [], acc => if acc.isEmpty then [] else [acc.reverse]
  | 13 :: 10 :: rest, acc => acc.reverse :: splitlinesGo rest []
  | 13 :: rest, acc => acc.reverse :: splitlinesGo rest []
  | 10 :: rest, acc => acc.reverse :: splitlinesGo rest []
  | c :: rest, acc => splitlinesGo rest (c :: acc)

/-- Python `bytes.splitlines`. -/
def splitlines (l : List Nat) : List (List Nat) := splitlinesGo l []

/-- `get_content_length`: scan the header lines for the first
`Content-Length` match; `none` models raising `HeaderError`.  (The
source's `lru_cache` is pure memoization and does not change the value.) -/
def get_content_length (header : List Nat) : Option Nat :=
  (splitlines header).findSome? matchContentLength

/-- Failures of `stdioRead`: `EOFError("stdout closed")` and a
re-raised `HeaderError`. -/
inductive StreamError where
  | endOfStream
  | headerError
deriving DecidableEq

/-- `stream.readline()` on a byte stream: everything up to and including
the first `\n` (or up to the end of the stream), plus the remainder. -/
def readLine : List Nat → List Nat × List Nat
  | [] => ([], [])
  | c :: cs =>
    if c = 10 then ([10], cs)
    else
      let r := readLine cs
      (c :: r.1, r.2)

/-- The header loop of `stdioRead`: accumulate raw header lines
(terminators included) until a blank `\r\n` line or end of stream; returns
the accumulated header bytes and the unread remainder.  Structural fuel:
every iteration consumes at least one byte, so fuel `s.length` is exact. -/
def readHeaderLoopF : Nat → List Nat → List Nat × List Nat
  | 0, s => ([], s)
  | fuel + 1, s =>
    let lr := readLine s
    if lr.1 = [] then ([], lr.2)
    else if lr.1 = [13, 10] then ([], lr.2)
    else
      let hr := readHeaderLoopF fuel lr.2
      (lr.1 ++ hr.1, hr.2)

/-- The header loop of `stdioRead` with exact fuel. -/
def readHeaderLoop (s : List Nat) : List Nat × List Nat :=
  readHeaderLoopF s.length s

/-- The content loop of `stdioRead`: keep reading until
`content_length` bytes have accumulated; an empty chunk while bytes are
still owed raises `EOFError`.  Structural fuel: every successful chunk is
non-empty, so fuel `need` is exact. -/
def readContentLoopF : Nat → Nat → List Nat → Except StreamError (List Nat)
  | _, 0, _ => .ok []
  | 0, _ + 1, _ => .error .endOfStream
  | f + 1, n + 1, s =>
    if s.isEmpty then .error .endOfStream
    else
      let chunk := s.take (n + 1)
      match readContentLoopF f (n + 1 - chunk.length) (s.drop (n + 1)) with
      | .ok more => .ok (chunk ++ more)
      | .error e => .error e

/-- The content loop of `stdioRead` with exact fuel. -/
def readContentLoop (need : Nat) (s : List Nat) : Except StreamError (List Nat) :=
  readContentLoopF need need s

/-- `StandardIO.read` on the byte stream `s`: read header lines until the
blank separator; fail with `EOFError` if no header byte arrived; parse
`Content-Length` (re-raising `HeaderError` on failure); then read exactly
that many content bytes, failing with `EOFError` if the stream closes
early. -/
def stdioRead (s : List Nat) : Except StreamError (List Nat) :=
  let header := (readHeaderLoop s).1
  let rest := (readHeaderLoop s).2
  if header.length = 0 then .error .endOfStream
  else
    match get_content_length header with
    | none => .error .headerError
    | some n => readContentLoop n rest

/-- `class RequestManager`: pending map `request_map` (a dict, modelled as
an insertion-ordered association list), `canceled_request` (a set,
modelled as a duplicate-free list), and the id counter `request_count`.
The reentrant lock serializes the operations; each operation below is one
critical section, so the lock itself needs no further modelling. -/
structure RequestManager where
  request_map : List (Nat × String)
  canceled_request : List Nat
  request_count : Nat

/-- `RequestManager.__init__`: empty map, empty set, counter zero. -/
def mkRequestManager : RequestManager := ⟨[], [], 0⟩

/-- Python `dict.__setitem__` for the `Nat`-keyed pending map. -/
def dictInsertNat (k : Nat) (v : String) (l : List (Nat × String)) :
    List (Nat × String) :=
  if (l.lookup k).isSome then
    l.map (fun p => if p.1 = k then (k, v) else p)
  else
    l ++ [(k, v)]

/-- `RequestManager.add_request`: increment the counter and record
`request_map[request_count] = method`.  The Python method has no `return`
statement, so its value is `None`: the second component is the returned
value. -/
def add_request (method : String) (s : RequestManager) :
    RequestManager × Option Nat :=
  ({ s with
      request_count := s.request_count + 1,
      request_map := dictInsertNat (s.request_count + 1) method s.request_map },
    none)

/-- Outcomes of `RequestManager.get_request`: the found method, a raised
`Canceled(request_id)`, or a raised `KeyError`. -/
inductive GetRes where
  | ok (method : String)
  | canceledErr (id : Nat)
  | keyErr
deriving DecidableEq

/-- `RequestManager.get_request`: if the id is in the cancelled set,
remove it from the set, `del` it from the pending map and raise
`Canceled`; `del` itself raises `KeyError` when the id has no pending
entry, and by then the cancelled set has already been mutated.  Otherwise
`request_map.pop(request_id)` returns the method or raises `KeyError`
without mutating anything.  Set removal and dict deletion are modelled by
filtering the (unique) key out. -/
def get_request (request_id : Nat) (s : RequestManager) :
    GetRes × RequestManager :=
  if request_id ∈ s.canceled_request then
    let s1 := { s with
      canceled_request := s.canceled_request.filter (fun i => i != request_id) }
    if (s1.request_map.lookup request_id).isSome then
      (.canceledErr request_id,
        { s1 with
            request_map := s1.request_map.filter (fun p => p.1 != request_id) })
    else
      (.keyErr, s1)
  else
    match s.request_map.lookup request_id with
    | some m =>
      (.ok m,
        { s with
            request_map := s.request_map.filter (fun p => p.1 != request_id) })
    | none => (.keyErr, s)

/-- `RequestManager.get_request_id`: scan the pending map in insertion
order and return the first id whose method matches, else `None`. -/
def get_request_id (method : String) (s : RequestManager) : Option Nat :=
  s.request_map.findSome? (fun p => if p.2 = method then some p.1 else none)

/-- `RequestManager.cancel_requests`: `canceled_request.update(request_id)`,
a set union (duplicates are not added). -/
def cancel_requests (ids : List Nat) (s : RequestManager) : RequestManager :=
  { s with
      canceled_request :=
        ids.foldl (fun acc i => if i ∈ acc then acc else acc ++ [i])
          s.canceled_request }

/-- Fold `add_request` over a list of methods (N sequential `add` calls),
discarding the `None` return values as the callers do. -/
def addAll (ms : List String) (s : RequestManager) : RequestManager :=
  ms.foldl (fun acc m => (add_request m acc).1) s

/-- `class Client`: the request tracker plus the transport it drives.  The
transport and handler are weak references to external collaborators; for
the request-lifecycle claims only the tracker and whether the transport
has been terminated are relevant. -/
structure Client where
  requestManager : RequestManager
  transportRunning : Bool

/-- A client over a freshly spawned transport: fresh tracker. -/
def mkClient : Client := ⟨mkRequestManager, true⟩

/-- `Client.terminate_server`: terminate the transport, then
`_reset_state()` replaces the tracker with a fresh `RequestManager()`. -/
def terminate_server (_c : Client) : Client :=
  { requestManager := mkRequestManager, transportRunning := false }

/-- `Client.send_request`: if a pending request of the same method is
found, mark it cancelled and send a `$/cancelRequest` notification
carrying its id; then allocate via `add_request`, read the fresh id from
`request_count` and send the request.  The second component lists the
messages written to the transport, in order. -/
def send_request (method : String) (params : Json) (c : Client) :
    Client × List RPCMessage :=
  match get_request_id method c.requestManager with
  | some prev =>
    let rm1 := cancel_requests [prev] c.requestManager
    let rm2 := (add_request method rm1).1
    ({ c with requestManager := rm2 },
      [RPCMessage.notification "$/cancelRequest" (.obj [("id", .num prev)]),
        RPCMessage.request rm2.request_count method params])
  | none =>
    let rm2 := (add_request method c.requestManager).1
    ({ c with requestManager := rm2 },
      [RPCMessage.request rm2.request_count method params])

/-- `Client.handle_request`: call the handler on the message's method and
params inside `try`; any exception is converted by
`exception_to_message` into the error object of the response; the
response echoes `message["id"]`.  Accessing a missing key raises
`KeyError`, which for `"method"`/`"params"` happens inside the `try` and
for `"id"` propagates (the `.error` of the result). -/
def handle_request (handler : Json → Json → Except String Json)
    (msg : RPCMessage) : Except String RPCMessage :=
  let attempt : Except String Json :=
    match msg.lookup "method" with
    | none => .error "KeyError: method"
    | some mv =>
      match msg.lookup "params" with
      | none => .error "KeyError: params"
      | some pv => handler mv pv
  let result : Option Json :=
    match attempt with
    | .ok r => some r
    | .error _ => none
  let err : Option RPCMessage :=
    match attempt with
    | .ok _ => none
    | .error e => some (RPCMessage.exception_to_message e)
  match msg.lookup "id" with
  | none => .error "KeyError: id"
  | some idv => .ok (RPCMessage.response idv result err)

/-- The pending entries that are live: recorded in the pending map and not
marked cancelled. -/
def livePending (s : RequestManager) : List (Nat × String) :=
  s.request_map.filter (fun p => !(s.canceled_request.contains p.1))

/-- The ids carried by the `$/cancelRequest` notifications in a list of
outbound messages. -/
def cancelTargets (msgs : List RPCMessage) : List Int :=
  msgs.filterMap fun msg =>
    match msg with
    | [("method", Json.str m), ("params", Json.obj [("id", Json.num i)])] =>
      if m = "$/cancelRequest" then some i else none
    | _ => none

/-- Three consecutive `send_request("completion", ...)` calls on a fresh
client with no response consumed in between: the final client and the
concatenation of all messages written to the transport. -/
def threeCalls : Client × List RPCMessage :=
  let r1 := send_request "completion" .null mkClient
  let r2 := send_request "completion" .null r1.1
  let r3 := send_request "completion" .null r2.1
  (r3.1, r1.2 ++ r2.2 ++ r3.2)

/-! Helper lemmas: association-list lookup and filter. -/

theorem lookup_none_of_keys {α β : Type} [BEq α] [LawfulBEq α] (k : α)
    (l : List (α × β)) (h : ∀ p ∈ l, p.1 ≠ k) : l.lookup k = none := by
  induction l with
  | nil => rfl
  | cons a t ih =>
    obtain ⟨a1, a2⟩ := a
    have ha : a1 ≠ k := h (a1, a2) (by simp)
    simp only [List.lookup, beq_eq_false_iff_ne.mpr (Ne.symm ha)]
    exact ih (fun p hp => h p (by simp [hp]))

theorem lookup_filter_ne {β : Type} (k : Nat) (l : List (Nat × β)) :
    (l.filter (fun p => p.1 != k)).lookup k = none := by
  apply lookup_none_of_keys
  intro p hp
  have := (List.mem_filter.mp hp).2
  simpa using this

theorem not_mem_filter_bne (k : Nat) (l : List Nat) :
    k ∉ l.filter (fun i => i != k) := by
  intro h
  have := (List.mem_filter.mp h).2
  simp at this

/-! Helper lemmas: in-place replacement in an object with unique keys. -/

theorem map_replace_id (k : String) (v : Json) (m : RPCMessage)
    (h : ∀ p ∈ m, p.1 ≠ k) :
    m.map (fun p => if p.1 = k then (k, v) else p) = m := by
  induction m with
  | nil => rfl
  | cons a t ih =>
    simp only [List.map_cons, if_neg (h a (by simp)),
      ih (fun p hp => h p (by simp [hp]))]

theorem objInsert_lookup_self (k : String) (v : Json) (m : RPCMessage)
    (hnd : (m.map Prod.fst).Nodup) (hl : m.lookup k = some v) :
    objInsert k v m = m := by
  induction m with
  | nil => simp [List.lookup] at hl
  | cons a t ih =>
    obtain ⟨a1, a2⟩ := a
    rw [List.map_cons, List.nodup_cons] at hnd
    by_cases hak : a1 = k
    · subst hak
      have hv : a2 = v := by simpa [List.lookup] using hl
      subst hv
      have hmapt := map_replace_id a1 a2 t
        (by
          intro p hp hpk
          have hmem : p.1 ∈ List.map Prod.fst t := List.mem_map_of_mem Prod.fst hp
          rw [hpk] at hmem
          exact hnd.1 hmem)
      simp [objInsert, List.lookup, hmapt]
    · have hbeq : (k == a1) = false := beq_eq_false_iff_ne.mpr (Ne.symm hak)
      have hl' : t.lookup k = some v := by
        simpa [List.lookup, hbeq] using hl
      have iht := ih hnd.2 hl'
      have hmapt : t.map (fun p => if p.1 = k then (k, v) else p) = t := by
        simpa [objInsert, hl'] using iht
      simp [objInsert, List.lookup, hbeq, hl', hak, hmapt]

/-! Helper lemmas: decimal rendering and parsing. -/

theorem decDigitsRevF_foldr (f : Nat) :
    ∀ n, n ≤ f → (decDigitsRevF f n).foldr (fun d acc => 10 * acc + d) 0 = n := by
  induction f with
  | zero => intro n h; interval_cases n; rfl
  | succ f ih =>
    intro n h
    match n with
    | 0 => rfl
    | m + 1 =>
      have hd : (m + 1) / 10 ≤ f := by
        have := Nat.div_lt_self (Nat.succ_pos m) (by norm_num : 1 < 10)
        omega
      simp only [decDigitsRevF, List.foldr_cons, ih _ hd]
      have := Nat.div_add_mod (m + 1) 10
      omega

theorem decDigitsRevF_lt_ten (f : Nat) :
    ∀ n, ∀ d ∈ decDigitsRevF f n, d < 10 := by
  induction f with
  | zero => intro n d hd; simp [decDigitsRevF] at hd
  | succ f ih =>
    intro n d hd
    match n with
    | 0 => simp [decDigitsRevF] at hd
    | m + 1 =>
      simp only [decDigitsRevF, List.mem_cons] at hd
      rcases hd with h | h
      · omega
      · exact ih _ d h

theorem parseDec_decRender (n : Nat) : parseDec (decRender n) = n := by
  unfold parseDec decRender
  rw [List.foldl_map]
  simp only [Nat.add_sub_cancel]
  by_cases h0 : n = 0
  · subst h0; rfl
  · unfold decDigitsBE
    rw [if_neg h0, List.foldl_reverse]
    exact decDigitsRevF_foldr n n le_rfl

theorem decRender_bounds (n : Nat) : ∀ c ∈ decRender n, 48 ≤ c ∧ c ≤ 57 := by
  intro c hc
  unfold decRender decDigitsBE at hc
  by_cases h0 : n = 0
  · subst h0; simp at hc; omega
  · rw [if_neg h0, List.mem_map] at hc
    obtain ⟨d, hd, rfl⟩ := hc
    rw [List.mem_reverse] at hd
    have := decDigitsRevF_lt_ten n n d hd
    omega

theorem decRender_ne_nil (n : Nat) : decRender n ≠ [] := by
  unfold decRender decDigitsBE
  by_cases h0 : n = 0
  · subst h0; simp
  · rw [if_neg h0]
    match n, h0 with
    | m + 1, _ => simp [decDigitsRevF]

/-! Helper lemmas: splitlines and header matching. -/

theorem splitlinesGo_crlf (rest acc : List Nat) :
    splitlinesGo (13 :: 10 :: rest) acc = acc.reverse :: splitlinesGo rest [] := rfl

theorem splitlinesGo_other (c : Nat) (rest acc : List Nat) (h13 : c ≠ 13)
    (h10 : c ≠ 10) :
    splitlinesGo (c :: rest) acc = splitlinesGo rest (c :: acc) := by
  rw [splitlinesGo.eq_def]
  split
  · simp_all
  · simp_all
  · simp_all
  · simp_all
  · rename_i heq
    simp only [List.cons.injEq] at heq
    rw [heq.1, heq.2]

theorem splitlinesGo_line (line : List Nat) (h : ∀ c ∈ line, c ≠ 13 ∧ c ≠ 10) :
    ∀ rest acc, splitlinesGo (line ++ 13 :: 10 :: rest) acc =
      (acc.reverse ++ line) :: splitlinesGo rest [] := by
  induction line with
  | nil => intro rest acc; simp [splitlinesGo_crlf]
  | cons c cs ih =>
    intro rest acc
    have hc := h c (by simp)
    rw [List.cons_append, splitlinesGo_other c _ _ hc.1 hc.2,
      ih (fun x hx => h x (by simp [hx]))]
    simp

theorem stripTag_append (t r : List Nat) : stripTag t (t ++ r) = some r := by
  induction t with
  | nil => rfl
  | cons a ts ih => simp [stripTag, ih]

theorem matchContentLength_tagged (n : Nat) :
    matchContentLength (contentLengthTag ++ decRender n) = some n := by
  have hdig : (decRender n).takeWhile isDigitByte = decRender n := by
    rw [List.takeWhile_eq_self_iff]
    intro c hc
    have := decRender_bounds n c hc
    simp [isDigitByte]
    omega
  have hne : (decRender n).isEmpty = false := by
    cases hd : decRender n with
    | nil => exact absurd hd (decRender_ne_nil n)
    | cons a t => rfl
  unfold matchContentLength
  rw [stripTag_append]
  simp [hdig, hne, parseDec_decRender]

theorem get_content_length_tagged (n : Nat) :
    get_content_length (contentLengthTag ++ decRender n ++ [13, 10] ++ [13, 10])
      = some n := by
  have hline : ∀ c ∈ contentLengthTag ++ decRender n, c ≠ 13 ∧ c ≠ 10 := by
    intro c hc
    rw [List.mem_append] at hc
    rcases hc with h | h
    · revert h; revert c; decide
    · have := decRender_bounds n c h
      omega
  have hsplit : splitlines (contentLengthTag ++ decRender n ++ [13, 10] ++ [13, 10])
      = [contentLengthTag ++ decRender n, []] := by
    unfold splitlines
    have : contentLengthTag ++ decRender n ++ [13, 10] ++ [13, 10]
        = (contentLengthTag ++ decRender n) ++ 13 :: 10 :: [13, 10] := by
      simp [List.append_assoc]
    rw [this, splitlinesGo_line _ hline]
    rfl
  rw [get_content_length, hsplit]
  simp [List.findSome?, matchContentLength_tagged]

/-! Helper lemmas: the content-reading loop. -/

theorem readContentLoopF_short (f : Nat) :
    ∀ n s, n ≤ f → s.length < n →
      readContentLoopF f n s = .error .endOfStream := by
  induction f with
  | zero => intro n s hf hs; omega
  | succ f ih =>
    intro n s hf hs
    match n, s with
    | 0, s => omega
    | m + 1, [] => rfl
    | m + 1, c :: cs =>
      have hcc : (c :: cs).length = cs.length + 1 := by simp
      have hlen : ((c :: cs).take (m + 1)).length = (c :: cs).length := by
        rw [List.length_take]
        exact min_eq_right (Nat.le_of_lt hs)
      have hdrop : (c :: cs).drop (m + 1) = [] :=
        List.drop_eq_nil_of_le (by omega)
      have hrec := ih (m + 1 - ((c :: cs).take (m + 1)).length)
        ((c :: cs).drop (m + 1))
        (by rw [hlen]; omega)
        (by rw [hdrop, hlen]; simp only [List.length_nil]; omega)
      simp only [readContentLoopF, List.isEmpty_cons, if_false]
      rw [hrec]
      rfl

theorem readContentLoopF_exact (f : Nat) :
    ∀ n s, n ≤ f → n ≤ s.length → readContentLoopF f n s = .ok (s.take n) := by
  induction f with
  | zero =>
    intro n s hf hs
    interval_cases n
    simp [readContentLoopF]
  | succ f ih =>
    intro n s hf hs
    match n, s with
    | 0, s => simp [readContentLoopF]
    | m + 1, [] => simp at hs
    | m + 1, c :: cs =>
      have hlen : ((c :: cs).take (m + 1)).length = m + 1 := by
        rw [List.length_take]
        exact min_eq_left hs
      simp only [readContentLoopF, List.isEmpty_cons, if_false]
      rw [hlen, Nat.sub_self]
      simp [readContentLoopF]

/-! Helper lemma: sequential id allocation. -/

theorem addAll_go (ms : List String) :
    ∀ s : RequestManager,
      s.request_map.map Prod.fst = List.range' 1 s.request_count →
      (addAll ms s).request_map
          = s.request_map ++ (List.range' (s.request_count + 1) ms.length).zip ms ∧
        (addAll ms s).request_count = s.request_count + ms.length := by
  induction ms with
  | nil => intro s hk; simp [addAll]
  | cons m rest ih =>
    intro s hk
    have hnotin : s.request_map.lookup (s.request_count + 1) = none := by
      apply lookup_none_of_keys
      intro p hp hpk
      have hmem : p.1 ∈ s.request_map.map Prod.fst := List.mem_map_of_mem Prod.fst hp
      rw [hk, List.mem_range'_1] at hmem
      omega
    have hs1map : (add_request m s).1.request_map
        = s.request_map ++ [(s.request_count + 1, m)] := by
      simp [add_request, dictInsertNat, hnotin]
    have hs1cnt : (add_request m s).1.request_count = s.request_count + 1 := rfl
    have hk1 : (add_request m s).1.request_map.map Prod.fst
        = List.range' 1 (add_request m s).1.request_count := by
      rw [hs1map, hs1cnt, List.map_append, hk, List.range'_1_concat]
      simp [Nat.add_comm]
    have hrest := ih (add_request m s).1 hk1
    have hfold : addAll (m :: rest) s = addAll rest (add_request m s).1 := by
      simp [addAll]
    constructor
    · rw [hfold, hrest.1, hs1map, hs1cnt]
      rw [List.length_cons, List.range'_succ, List.zip_cons_cons]
      simp [List.append_assoc]
    · rw [hfold, hrest.2, hs1cnt, List.length_cons]
      omega

/-! The claims. -/

/-- C1: the at-most-one-in-flight-per-method invariant FAILS on the code.
After three consecutive `send_request("completion", ...)` calls with no
response consumed, the pending map holds ids 1, 2, 3 but only id 1 is
marked cancelled: ids 2 and 3 are both live, and the two `$/cancelRequest`
notifications both carry id 1 — superseded id 2 is never cancelled.  The
cause: `cancel_requests` leaves the cancelled entry in `request_map` and
`get_request_id` returns the first match in insertion order, so the
already-cancelled oldest id keeps shadowing the live one. -/
theorem supersede_invariant_violation_three_calls :
    livePending threeCalls.1.requestManager
      = [(2, "completion"), (3, "completion")] ∧
    cancelTargets threeCalls.2 = [1, 1] ∧
    threeCalls.1.requestManager.request_map
      = [(1, "completion"), (2, "completion"), (3, "completion")] ∧
    threeCalls.1.requestManager.canceled_request = [1] :=
  ⟨rfl, rfl, rfl, rfl⟩

/-- C2: round-trip: for every valid message (unique keys, carrying the
protocol-version tag `"jsonrpc": "2.0"`), decoding the body produced by
encoding yields the message back: `RPCMessage.load (m.dumps()) = ok m`. -/
theorem rpc_message_roundtrip (m : RPCMessage)
    (hnd : (m.map Prod.fst).Nodup)
    (htag : m.lookup "jsonrpc" = some (Json.str "2.0")) :
    RPCMessage.load (RPCMessage.dumps m) = .ok m := by
  have h := objInsert_lookup_self "jsonrpc" (Json.str "2.0") m hnd htag
  rw [RPCMessage.dumps, h]
  simp [RPCMessage.load, htag]

/-- C2 witness: the round-trip at a concrete tagged message. -/
theorem rpc_message_roundtrip_witness :
    (([("jsonrpc", Json.str "2.0"), ("id", Json.num 1),
        ("result", Json.null)] : RPCMessage).map Prod.fst).Nodup ∧
    ([("jsonrpc", Json.str "2.0"), ("id", Json.num 1),
        ("result", Json.null)] : RPCMessage).lookup "jsonrpc"
      = some (Json.str "2.0") ∧
    RPCMessage.load (RPCMessage.dumps
        [("jsonrpc", Json.str "2.0"), ("id", Json.num 1), ("result", Json.null)])
      = .ok [("jsonrpc", Json.str "2.0"), ("id", Json.num 1), ("result", Json.null)] :=
  ⟨by decide, rfl, rpc_message_roundtrip _ (by decide) rfl⟩

/-- C3: two-call supersede scenario: from a fresh client,
`send_request("m", p1)` then `send_request("m", p2)` sends exactly one
`$/cancelRequest` notification, carrying the first allocated id 1, and
leaves exactly one live pending entry, for the second allocated id 2. -/
theorem send_request_two_call_supersede (p1 p2 : Json) :
    (send_request "m" p1 mkClient).2 = [RPCMessage.request 1 "m" p1] ∧
    (send_request "m" p2 (send_request "m" p1 mkClient).1).2
      = [RPCMessage.notification "$/cancelRequest" (Json.obj [("id", Json.num 1)]),
          RPCMessage.request 2 "m" p2] ∧
    cancelTargets ((send_request "m" p1 mkClient).2
        ++ (send_request "m" p2 (send_request "m" p1 mkClient).1).2) = [1] ∧
    livePending (send_request "m" p2 (send_request "m" p1 mkClient).1).1.requestManager
      = [(2, "m")] :=
  ⟨rfl, rfl, rfl, rfl⟩

/-- C4: cancellation precedence: for an id X that is pending and marked
cancelled, the first `get_request(X)` raises `Canceled` — not `KeyError` —
and removes X from both the pending map and the cancelled set, so a second
`get_request(X)` raises `KeyError`. -/
theorem take_canceled_precedence (s : RequestManager) (X : Nat)
    (hc : X ∈ s.canceled_request)
    (hm : (s.request_map.lookup X).isSome = true) :
    (get_request X s).1 = .canceledErr X ∧
    (get_request X s).2.request_map.lookup X = none ∧
    X ∉ (get_request X s).2.canceled_request ∧
    (get_request X (get_request X s).2).1 = .keyErr := by
  have hstep : get_request X s
      = (GetRes.canceledErr X,
          { s with
              request_map := s.request_map.filter (fun p => p.1 != X),
              canceled_request := s.canceled_request.filter (fun i => i != X) }) := by
    simp only [get_request]
    rw [if_pos hc, if_pos hm]
  refine ⟨by rw [hstep], ?_, ?_, ?_⟩
  · rw [hstep]
    exact lookup_filter_ne X s.request_map
  · rw [hstep]
    exact not_mem_filter_bne X s.canceled_request
  · rw [hstep]
    simp only [get_request]
    rw [if_neg (not_mem_filter_bne X s.canceled_request), lookup_filter_ne]

/-- C4 witness: the precedence scenario at a concrete tracker state. -/
theorem take_canceled_precedence_witness :
    (1 ∈ (⟨[(1, "textDocument/completion")], [1], 1⟩
        : RequestManager).canceled_request) ∧
    ((⟨[(1, "textDocument/completion")], [1], 1⟩
        : RequestManager).request_map.lookup 1).isSome = true ∧
    (get_request 1 ⟨[(1, "textDocument/completion")], [1], 1⟩).1
      = .canceledErr 1 ∧
    (get_request 1
        (get_request 1 ⟨[(1, "textDocument/completion")], [1], 1⟩).2).1
      = .keyErr := by
  have h := take_canceled_precedence ⟨[(1, "textDocument/completion")], [1], 1⟩ 1
    (by decide) (by decide)
  exact ⟨by decide, by decide, h.1, h.2.2.2⟩

/-- C5: EndOfStream propagation: if the header loop accumulates zero
header bytes, `read` fails with `EOFError`; if the parsed Content-Length
M exceeds the remaining stream, `read` fails with `EOFError` instead of
returning a truncated body; otherwise it returns exactly M bytes. -/
theorem stdio_read_end_of_stream_spec (s t u : List Nat) (M N : Nat)
    (hs : (readHeaderLoop s).1 = [])
    (ht : get_content_length (readHeaderLoop t).1 = some M)
    (htl : (readHeaderLoop t).2.length < M)
    (hu : get_content_length (readHeaderLoop u).1 = some N)
    (hul : N ≤ (readHeaderLoop u).2.length) :
    stdioRead s = .error .endOfStream ∧
    stdioRead t = .error .endOfStream ∧
    stdioRead u = .ok ((readHeaderLoop u).2.take N) ∧
    ((readHeaderLoop u).2.take N).length = N := by
  refine ⟨?_, ?_, ?_, ?_⟩
  · simp [stdioRead, hs]
  · have hne : ¬(readHeaderLoop t).1.length = 0 := by
      intro h0
      rw [List.length_eq_zero] at h0
      rw [h0] at ht
      simp [get_content_length, splitlines, splitlinesGo] at ht
    simp only [stdioRead]
    rw [if_neg hne, ht]
    exact readContentLoopF_short M M _ le_rfl htl
  · have hne : ¬(readHeaderLoop u).1.length = 0 := by
      intro h0
      rw [List.length_eq_zero] at h0
      rw [h0] at hu
      simp [get_content_length, splitlines, splitlinesGo] at hu
    simp only [stdioRead]
    rw [if_neg hne, hu]
    exact readContentLoopF_exact N N _ le_rfl hul
  · rw [List.length_take]
    exact min_eq_left hul

/-- C5 witness: empty stream, truncated frame and complete frame. -/
theorem stdio_read_end_of_stream_spec_witness :
    stdioRead [] = .error .endOfStream ∧
    stdioRead (contentLengthTag ++ decRender 3 ++ [13, 10, 13, 10] ++ [65])
      = .error .endOfStream ∧
    stdioRead
        (contentLengthTag ++ decRender 3 ++ [13, 10, 13, 10] ++ [65, 66, 67, 68])
      = .ok [65, 66, 67] := by
  have h := stdio_read_end_of_stream_spec []
    (contentLengthTag ++ decRender 3 ++ [13, 10, 13, 10] ++ [65])
    (contentLengthTag ++ decRender 3 ++ [13, 10, 13, 10] ++ [65, 66, 67, 68])
    3 3 rfl (by decide) (by decide) (by decide) (by decide)
  refine ⟨h.1, h.2.1, ?_⟩
  rw [h.2.2.1]
  rfl

/-- C6 counterexample: `add_request` allocates id 1 on a fresh tracker but
returns `None` (the Python method has no return statement), so the call
does not return the id it allocated. -/
theorem add_request_returns_none_counterexample :
    (add_request "completion" mkRequestManager).1.request_count = 1 ∧
    (add_request "completion" mkRequestManager).2 = none ∧
    (add_request "completion" mkRequestManager).2 ≠ some 1 :=
  ⟨rfl, rfl, by decide⟩

/-- C6 (amended): N sequential `add_request` calls from a fresh tracker
allocate the ids 1..N — distinct, strictly increasing, no gaps, no reuse —
and record each id mapped to its method; the allocated id is exposed via
`request_count` (which equals N after the N-th call), while `add_request`
itself returns `None`, not the id. -/
theorem add_request_allocation_spec (ms : List String) :
    (addAll ms mkRequestManager).request_map = (List.range' 1 ms.length).zip ms ∧
    (addAll ms mkRequestManager).request_map.map Prod.fst
      = List.range' 1 ms.length ∧
    ((addAll ms mkRequestManager).request_map.map Prod.fst).Pairwise (· < ·) ∧
    (addAll ms mkRequestManager).request_count = ms.length ∧
    ∀ (m : String) (s : RequestManager), (add_request m s).2 = none := by
  have h := addAll_go ms mkRequestManager rfl
  have hmap : (addAll ms mkRequestManager).request_map
      = (List.range' 1 ms.length).zip ms := by
    have := h.1
    simpa [mkRequestManager] using this
  have hkeys : (addAll ms mkRequestManager).request_map.map Prod.fst
      = List.range' 1 ms.length := by
    rw [hmap]
    exact List.map_fst_zip _ _ (by simp [List.length_range'])
  refine ⟨hmap, hkeys, ?_, ?_, fun m s => rfl⟩
  · rw [hkeys]
    exact List.pairwise_lt_range' 1 ms.length
  · have := h.2
    simpa [mkRequestManager] using this

/-- C7: framing round-trip: `wrap_rpc` prepends a header of the exact byte
form `Content-Length: <N>\r\n\r\n` with N the body's byte length;
`get_content_length` applied to that header recovers exactly N; and it
fails (`HeaderError`, modelled as `none`) when no line matches the
Content-Length pattern. -/
theorem framing_header_roundtrip (content : List Nat) (h : List Nat)
    (hnone : ∀ line ∈ splitlines h, matchContentLength line = none) :
    wrap_rpc content
      = contentLengthTag ++ decRender content.length
          ++ [13, 10] ++ [13, 10] ++ content ∧
    get_content_length
        (contentLengthTag ++ decRender content.length ++ [13, 10] ++ [13, 10])
      = some content.length ∧
    get_content_length h = none := by
  refine ⟨by simp [wrap_rpc], get_content_length_tagged content.length, ?_⟩
  rw [get_content_length]
  exact List.findSome?_eq_none_iff.mpr hnone

/-- C7 witness: a three-byte body and a header with no Content-Length. -/
theorem framing_header_roundtrip_witness :
    (∀ line ∈ splitlines [88, 10], matchContentLength line = none) ∧
    wrap_rpc [65, 66, 67]
      = contentLengthTag ++ decRender 3 ++ [13, 10] ++ [13, 10] ++ [65, 66, 67] ∧
    get_content_length (contentLengthTag ++ decRender 3 ++ [13, 10] ++ [13, 10])
      = some 3 ∧
    get_content_length [88, 10] = none := by
  have h := framing_header_roundtrip [65, 66, 67] [88, 10] (by decide)
  exact ⟨by decide, h.1, h.2.1, h.2.2⟩

/-- C8: handler-exception conversion: for an inbound message carrying a
method, params and an id, if the handler raises, `handle_request` returns
normally (the exception does not propagate) with a response echoing the id
whose error field is an object holding the message string and the integer
code 1, and carrying no result field. -/
theorem handle_request_exception_to_error
    (handler : Json → Json → Except String Json) (msg : RPCMessage)
    (mv pv idv : Json) (e : String)
    (hm : msg.lookup "method" = some mv)
    (hp : msg.lookup "params" = some pv)
    (hid : msg.lookup "id" = some idv)
    (he : handler mv pv = .error e) :
    handle_request handler msg
      = .ok [("id", idv),
          ("error", Json.obj [("message", Json.str e), ("code", Json.num 1)])] ∧
    ([("id", idv),
        ("error", Json.obj [("message", Json.str e), ("code", Json.num 1)])]
      : RPCMessage).lookup "result" = none := by
  constructor
  · simp only [handle_request, hm, hp, he, hid]
    rfl
  · rfl

/-- C8 witness: a raising handler at a concrete request message. -/
theorem handle_request_exception_witness :
    ([("id", Json.num 5), ("method", Json.str "textDocument/hover"),
        ("params", Json.null)] : RPCMessage).lookup "method"
      = some (Json.str "textDocument/hover") ∧
    handle_request (fun _ _ => .error "boom")
        [("id", Json.num 5), ("method", Json.str "textDocument/hover"),
          ("params", Json.null)]
      = .ok [("id", Json.num 5),
          ("error", Json.obj [("message", Json.str "boom"), ("code", Json.num 1)])] :=
  ⟨rfl, (handle_request_exception_to_error (fun _ _ => .error "boom")
      [("id", Json.num 5), ("method", Json.str "textDocument/hover"),
        ("params", Json.null)]
      (Json.str "textDocument/hover") Json.null (Json.num 5) "boom"
      rfl rfl rfl rfl).1⟩

/-- C9: tracker reset on termination: after `terminate_server`, the
client's tracker holds zero pending and zero cancelled entries (and the
id counter is back to zero), regardless of the prior state. -/
theorem terminate_server_resets_tracker (c : Client) :
    (terminate_server c).requestManager.request_map = [] ∧
    (terminate_server c).requestManager.canceled_request = [] ∧
    (terminate_server c).requestManager.request_count = 0 :=
  ⟨rfl, rfl, rfl⟩

/-- C10 (implicit): taking a cancelled-but-never-added id raises
`KeyError` (not `Canceled`), and by the time the error is raised the id
has already been removed from the cancelled set while the pending map is
untouched — the tracker is mutated despite the failure. -/
theorem take_canceled_unknown_id (s : RequestManager) (X : Nat)
    (hc : X ∈ s.canceled_request)
    (hm : s.request_map.lookup X = none) :
    (get_request X s).1 = .keyErr ∧
    X ∉ (get_request X s).2.canceled_request ∧
    (get_request X s).2.request_map = s.request_map := by
  have hstep : get_request X s
      = (GetRes.keyErr,
          { s with
              canceled_request := s.canceled_request.filter (fun i => i != X) }) := by
    simp only [get_request]
    rw [if_pos hc, hm]
    rfl
  refine ⟨by rw [hstep], ?_, by rw [hstep]⟩
  rw [hstep]
  exact not_mem_filter_bne X s.canceled_request

/-- C10 witness: id 7 cancelled but never added. -/
theorem take_canceled_unknown_id_witness :
    (7 ∈ (⟨[], [7], 0⟩ : RequestManager).canceled_request) ∧
    (⟨[], [7], 0⟩ : RequestManager).request_map.lookup 7 = none ∧
    (get_request 7 ⟨[], [7], 0⟩).1 = .keyErr ∧
    7 ∉ (get_request 7 ⟨[], [7], 0⟩).2.canceled_request := by
  have h := take_canceled_unknown_id ⟨[], [7], 0⟩ 7 (by decide) rfl
  exact ⟨by decide, rfl, h.1, h.2.1⟩
